import Mathlib

/-!
Verification of the `image-to-body-math` pixel/angle conversion library.

The C++ sources are embedded shallowly: `double` is modelled as `ℝ`,
`uint64_t` as `ℕ`.  `std::round` (round half away from zero) and the
`static_cast<uint64_t>(double)` truncation toward zero are modelled
explicitly by `cppRound` and `cppTruncToU64` below.
-/

namespace p2b

/-- `struct ImageSize { uint64_t width{}, height{}; }` from types.hpp. -/
structure ImageSize where
  width : ℕ
  height : ℕ

/-- `ImageSize::half_width`: `static_cast<double>(width) / 2.0`. -/
noncomputable def ImageSize.half_width (s : ImageSize) : ℝ :=
  (s.width : ℝ) / 2

/-- `ImageSize::half_height`: `static_cast<double>(height) / 2.0`. -/
noncomputable def ImageSize.half_height (s : ImageSize) : ℝ :=
  (s.height : ℝ) / 2

/-- `class PixelIndex { uint64_t value; }` from types.hpp. -/
structure PixelIndex where
  value : ℕ

/-- `PixelIndex::normalized`: `static_cast<double>(value) / size.half_width() - 1.0`. -/
noncomputable def PixelIndex.normalized (p : PixelIndex) (size : ImageSize) : ℝ :=
  (p.value : ℝ) / size.half_width - 1

/-- `std::round`: rounds half-way cases away from zero. -/
noncomputable def cppRound (x : ℝ) : ℤ :=
  if 0 ≤ x then ⌊x + 1 / 2⌋ else ⌈x - 1 / 2⌉

/-- `static_cast<uint64_t>(double)`: truncation toward zero.  Negative
truncated values cannot be represented in `uint64_t` (undefined behaviour in
the C++ source); the model clamps them to `0` via `Int.toNat`. -/
noncomputable def cppTruncToU64 (x : ℝ) : ℕ :=
  if 0 ≤ x then (⌊x⌋).toNat else (⌈x⌉).toNat

/-- `pixel_tan_from_fov` from math.hpp: `atan(pixel.normalized(image_size)
* tan(fov / 2.0))`, returned as a `Radians` value. -/
noncomputable def pixel_tan_from_fov (pixel : PixelIndex) (image_size : ImageSize)
    (fov : ℝ) : ℝ :=
  Real.arctan (pixel.normalized image_size * Real.tan (fov / 2))

/-- `tan_2_pixel_by_fov` from math.hpp: `norm = pixel_tan / tan(fov/2)`;
`static_cast<uint64_t>(round(norm * half_width + half_width))`. -/
noncomputable def tan_2_pixel_by_fov (pixel_tan : ℝ) (image_size : ImageSize)
    (fov : ℝ) : PixelIndex :=
  ⟨(cppRound (pixel_tan / Real.tan (fov / 2) * image_size.half_width
      + image_size.half_width)).toNat⟩

/-- `pixel_tan_by_pixel_2_tan` from math.hpp:
`(value - half_width) * pixel_2_tan`. -/
noncomputable def pixel_tan_by_pixel_2_tan (pixel : PixelIndex) (image_size : ImageSize)
    (pixel_2_tan : ℝ) : ℝ :=
  ((pixel.value : ℝ) - image_size.half_width) * pixel_2_tan

/-- `angle_tan_to_pixel` from math.hpp:
`static_cast<uint64_t>(round(angle_tan.value() / pixel_2_tan + half_width))`. -/
noncomputable def angle_tan_to_pixel (angle_tan : ℝ) (image_size : ImageSize)
    (pixel_2_tan : ℝ) : PixelIndex :=
  ⟨(cppRound (angle_tan / pixel_2_tan + image_size.half_width)).toNat⟩

/-- `pixel_tan_by_pixel_2_tan_clipped` from math.hpp: dead zone around the
image center, otherwise the unclipped linear formula. -/
noncomputable def pixel_tan_by_pixel_2_tan_clipped (pixel : PixelIndex)
    (image_size : ImageSize) (pixel_2_tan clipping_threshold : ℝ) : ℝ :=
  if |(pixel.value : ℝ) - image_size.half_width| < clipping_threshold * image_size.half_width then
    0
  else
    ((pixel.value : ℝ) - image_size.half_width) * pixel_2_tan

/-- `tan_2_pixel_by_pixel_2_tan` from math.hpp: `pixel_v = pixel_tan /
pixel_2_tan + half_width`; rounds when `round_back`, otherwise the plain
integer cast truncates toward zero. -/
noncomputable def tan_2_pixel_by_pixel_2_tan (pixel_tan : ℝ) (image_size : ImageSize)
    (pixel_2_tan : ℝ) (round_back : Bool) : PixelIndex :=
  if round_back then
    ⟨(cppRound (pixel_tan / pixel_2_tan + image_size.half_width)).toNat⟩
  else
    ⟨cppTruncToU64 (pixel_tan / pixel_2_tan + image_size.half_width)⟩

/-- After the cast to `uint64_t`, C++ `std::round` and Mathlib's `round`
agree: they differ only at negative half-way points, which the cast clamps
to `0` in the model (undefined behaviour in the source). -/
theorem cppRound_toNat_eq (x : ℝ) : (cppRound x).toNat = (round x).toNat := by
  unfold cppRound
  by_cases hx : 0 ≤ x
  · rw [if_pos hx, round_eq]
  · rw [if_neg hx]
    push_neg at hx
    have h1 : ⌈x - 1 / 2⌉ ≤ 0 := Int.ceil_le.2 (by push_cast; linarith)
    have h2 : round x ≤ 0 := by
      rw [round_eq]
      have : ⌊x + 1 / 2⌋ ≤ ⌊(1 : ℝ) / 2⌋ := Int.floor_le_floor (by linarith)
      simpa using this.trans_eq (by norm_num)
    rw [Int.toNat_of_nonpos h1, Int.toNat_of_nonpos h2]

/-- After the clamp to `uint64_t`, truncation toward zero agrees with the
floor: they differ only on `(-1, 0)`, where both are clamped to `0`. -/
theorem cppTruncToU64_eq_floor (x : ℝ) : cppTruncToU64 x = (⌊x⌋).toNat := by
  unfold cppTruncToU64
  by_cases hx : 0 ≤ x
  · rw [if_pos hx]
  · rw [if_neg hx]
    push_neg at hx
    have h1 : ⌈x⌉ ≤ 0 := Int.ceil_le.2 (by push_cast; linarith)
    have h2 : ⌊x⌋ ≤ 0 := Int.floor_nonpos hx.le
    rw [Int.toNat_of_nonpos h1, Int.toNat_of_nonpos h2]

/-- `cppRound` is the identity on natural-number inputs. -/
theorem cppRound_natCast (n : ℕ) : cppRound (n : ℝ) = n := by
  unfold cppRound
  rw [if_pos (by positivity)]
  rw [show ((n : ℝ) + 1 / 2) = ((n : ℤ) : ℝ) + 1 / 2 by push_cast; ring]
  rw [Int.floor_int_add]
  norm_num

/-- Claim C1: for every pixel, every image size with positive width and every
fov, `pixel_tan_from_fov` returns the angle `atan(norm * tan(fov/2))` where
`norm` is the normalized pixel, so its tangent equals `norm * tan(fov/2)`. -/
theorem C1_pixel_tan_from_fov_tan (pixel : PixelIndex) (image_size : ImageSize)
    (fov : ℝ) (hw : 0 < image_size.width) :
    pixel_tan_from_fov pixel image_size fov
        = Real.arctan (pixel.normalized image_size * Real.tan (fov / 2)) ∧
      Real.tan (pixel_tan_from_fov pixel image_size fov)
        = pixel.normalized image_size * Real.tan (fov / 2) :=
  ⟨rfl, Real.tan_arctan _⟩

/-- Witness for C1 at the spec's seed values: pixel 20, image width 20. -/
theorem C1_pixel_tan_from_fov_tan_witness :
    0 < (ImageSize.mk 20 0).width ∧
      (pixel_tan_from_fov ⟨20⟩ ⟨20, 0⟩ 1
          = Real.arctan ((PixelIndex.mk 20).normalized ⟨20, 0⟩ * Real.tan (1 / 2)) ∧
        Real.tan (pixel_tan_from_fov ⟨20⟩ ⟨20, 0⟩ 1)
          = (PixelIndex.mk 20).normalized ⟨20, 0⟩ * Real.tan (1 / 2)) :=
  ⟨by decide, C1_pixel_tan_from_fov_tan ⟨20⟩ ⟨20, 0⟩ 1 (by decide)⟩

/-- Claim C3: `pixel_tan_by_pixel_2_tan_clipped` returns exactly `0` when
`|pixel.value - half_width| < threshold * half_width`, and otherwise equals
`pixel_tan_by_pixel_2_tan` on the same arguments. -/
theorem C3_clipping_dead_zone (pixel : PixelIndex) (image_size : ImageSize)
    (pixel_2_tan clipping_threshold : ℝ) :
    pixel_tan_by_pixel_2_tan_clipped pixel image_size pixel_2_tan clipping_threshold
      = if |(pixel.value : ℝ) - image_size.half_width|
            < clipping_threshold * image_size.half_width then 0
        else pixel_tan_by_pixel_2_tan pixel image_size pixel_2_tan := rfl

/-- Claim C6: for pixels `p1`, `p2` with `p1.value + p2.value = width`
(equidistant from the image center on opposite sides), the tangents of
`pixel_tan_from_fov` at `p1` and `p2` are negatives of each other. -/
theorem C6_symmetry (p1 p2 : PixelIndex) (s : ImageSize) (fov : ℝ)
    (hw : 0 < s.width) (hsum : p1.value + p2.value = s.width) :
    Real.tan (pixel_tan_from_fov p1 s fov)
      = -Real.tan (pixel_tan_from_fov p2 s fov) := by
  have hw0 : (s.width : ℝ) ≠ 0 := Nat.cast_ne_zero.2 hw.ne'
  have hnorm : p1.normalized s = -(p2.normalized s) := by
    unfold PixelIndex.normalized ImageSize.half_width
    have h : (p1.value : ℝ) + (p2.value : ℝ) = (s.width : ℝ) := by exact_mod_cast hsum
    field_simp
    linarith
  unfold pixel_tan_from_fov
  rw [Real.tan_arctan, Real.tan_arctan, hnorm]
  ring

/-- Witness for C6: pixels 1 and 3 in an image of width 4, fov 1. -/
theorem C6_symmetry_witness :
    (0 < (ImageSize.mk 4 0).width ∧
      (PixelIndex.mk 1).value + (PixelIndex.mk 3).value = (ImageSize.mk 4 0).width) ∧
    Real.tan (pixel_tan_from_fov ⟨1⟩ ⟨4, 0⟩ 1)
      = -Real.tan (pixel_tan_from_fov ⟨3⟩ ⟨4, 0⟩ 1) :=
  ⟨⟨by decide, by decide⟩, C6_symmetry ⟨1⟩ ⟨3⟩ ⟨4, 0⟩ 1 (by decide) (by decide)⟩

/-- Counterexample to claim C7 as stated: pixel 10 in an image of width 4 has
`normalized = 10 / 2 - 1 = 4`, outside `[-1, 1]`, although the width is
positive.  `PixelIndex` does not bound its value by the image width. -/
theorem C7_counterexample :
    0 < (ImageSize.mk 4 0).width ∧
      ¬(-1 ≤ (PixelIndex.mk 10).normalized ⟨4, 0⟩ ∧
          (PixelIndex.mk 10).normalized ⟨4, 0⟩ ≤ 1) := by
  refine ⟨by decide, ?_⟩
  norm_num [PixelIndex.normalized, ImageSize.half_width]

/-- Claim C7, amended: for every image size with positive width and every
pixel whose value is at most the width, `normalized` lies in `[-1, 1]`. -/
theorem C7_normalized_in_unit_interval (p : PixelIndex) (s : ImageSize)
    (hw : 0 < s.width) (hv : p.value ≤ s.width) :
    -1 ≤ p.normalized s ∧ p.normalized s ≤ 1 := by
  have hwpos : (0 : ℝ) < (s.width : ℝ) := by exact_mod_cast hw
  have hvr : (p.value : ℝ) ≤ (s.width : ℝ) := by exact_mod_cast hv
  have hv0 : (0 : ℝ) ≤ (p.value : ℝ) := Nat.cast_nonneg _
  unfold PixelIndex.normalized ImageSize.half_width
  constructor
  · have h := div_nonneg hv0 (by positivity : (0 : ℝ) ≤ (s.width : ℝ) / 2)
    linarith
  · have h : (p.value : ℝ) / ((s.width : ℝ) / 2) ≤ 2 := by
      rw [div_le_iff₀ (by positivity)]
      linarith
    linarith

/-- Witness for the amended C7: pixel 3 in an image of width 4. -/
theorem C7_normalized_in_unit_interval_witness :
    (0 < (ImageSize.mk 4 0).width ∧ (PixelIndex.mk 3).value ≤ (ImageSize.mk 4 0).width) ∧
      (-1 ≤ (PixelIndex.mk 3).normalized ⟨4, 0⟩ ∧ (PixelIndex.mk 3).normalized ⟨4, 0⟩ ≤ 1) :=
  ⟨⟨by decide, by decide⟩, C7_normalized_in_unit_interval ⟨3⟩ ⟨4, 0⟩ (by decide) (by decide)⟩

/-- Claim C8: `half_width` returns `width / 2` and `half_height` returns
`height / 2` as real values; in particular any size with width `0` (resp.
height `0`) yields exactly `0`, with no error. -/
theorem C8_half_dims (s : ImageSize) :
    s.half_width = (s.width : ℝ) / 2 ∧ s.half_height = (s.height : ℝ) / 2 ∧
      ImageSize.half_width ⟨0, s.height⟩ = 0 ∧ ImageSize.half_height ⟨s.width, 0⟩ = 0 := by
  refine ⟨rfl, rfl, ?_, ?_⟩ <;> simp [ImageSize.half_width, ImageSize.half_height]

/-- Claim C9: with `round_back = true`, `tan_2_pixel_by_pixel_2_tan`
coincides with `angle_tan_to_pixel` on every tangent, size and nonzero
scale. -/
theorem C9_round_true_eq_angle_tan_to_pixel (t : ℝ) (s : ImageSize) (k : ℝ)
    (hk : k ≠ 0) :
    tan_2_pixel_by_pixel_2_tan t s k true = angle_tan_to_pixel t s k := rfl

/-- Witness for C9 at tangent 1, width 4, scale 1. -/
theorem C9_round_true_eq_angle_tan_to_pixel_witness :
    (1 : ℝ) ≠ 0 ∧
      tan_2_pixel_by_pixel_2_tan 1 ⟨4, 0⟩ 1 true = angle_tan_to_pixel 1 ⟨4, 0⟩ 1 :=
  ⟨by norm_num, C9_round_true_eq_angle_tan_to_pixel 1 ⟨4, 0⟩ 1 (by norm_num)⟩

/-- Claim C10: a non-positive clipping threshold makes the dead zone empty,
so the clipped conversion equals the unclipped one everywhere. -/
theorem C10_nonpos_threshold (pixel : PixelIndex) (image_size : ImageSize)
    (pixel_2_tan clipping_threshold : ℝ) (ht : clipping_threshold ≤ 0) :
    pixel_tan_by_pixel_2_tan_clipped pixel image_size pixel_2_tan clipping_threshold
      = pixel_tan_by_pixel_2_tan pixel image_size pixel_2_tan := by
  unfold pixel_tan_by_pixel_2_tan_clipped pixel_tan_by_pixel_2_tan
  rw [if_neg]
  refine not_lt.2 (le_trans ?_ (abs_nonneg _))
  have hhw : 0 ≤ image_size.half_width := by
    unfold ImageSize.half_width
    positivity
  nlinarith

/-- Witness for C10: threshold 0, pixel 0, width 2, scale 1. -/
theorem C10_nonpos_threshold_witness :
    (0 : ℝ) ≤ 0 ∧
      pixel_tan_by_pixel_2_tan_clipped ⟨0⟩ ⟨2, 0⟩ 1 0
        = pixel_tan_by_pixel_2_tan ⟨0⟩ ⟨2, 0⟩ 1 :=
  ⟨le_refl 0, C10_nonpos_threshold ⟨0⟩ ⟨2, 0⟩ 1 0 (le_refl 0)⟩

/-- Claim C2: round-trip.  For an image of positive width, a fov in
`(0, π)` and a pixel value strictly inside `[0, width]`, feeding the tangent
of `pixel_tan_from_fov` back through `tan_2_pixel_by_fov` recovers the pixel
value within ±1.  (The idealized real-valued computation recovers it
exactly.) -/
theorem C2_roundtrip (s : ImageSize) (fov : ℝ) (p : ℕ)
    (hp0 : 0 < p) (hpw : p < s.width) (hf0 : 0 < fov) (hfpi : fov < Real.pi) :
    |((tan_2_pixel_by_fov (Real.tan (pixel_tan_from_fov ⟨p⟩ s fov)) s fov).value : ℤ)
        - (p : ℤ)| ≤ 1 := by
  have hwpos : (0 : ℝ) < (s.width : ℝ) := by
    have h := lt_trans hp0 hpw
    exact_mod_cast h
  have hft : 0 < Real.tan (fov / 2) :=
    Real.tan_pos_of_pos_of_lt_pi_div_two (by linarith) (by linarith)
  have hval : (tan_2_pixel_by_fov (Real.tan (pixel_tan_from_fov ⟨p⟩ s fov)) s fov).value
      = p := by
    unfold tan_2_pixel_by_fov pixel_tan_from_fov
    rw [Real.tan_arctan]
    have harg : (PixelIndex.mk p).normalized s * Real.tan (fov / 2) / Real.tan (fov / 2)
        * s.half_width + s.half_width = (p : ℝ) := by
      unfold PixelIndex.normalized ImageSize.half_width
      have h1 : Real.tan (fov / 2) ≠ 0 := hft.ne'
      have h2 : (s.width : ℝ) ≠ 0 := hwpos.ne'
      field_simp
      ring
    rw [harg, cppRound_natCast]
    simp
  rw [hval]
  simp

/-- Witness for C2: pixel 1 in an image of width 4, fov 1 radian. -/
theorem C2_roundtrip_witness :
    (0 < 1 ∧ 1 < (ImageSize.mk 4 0).width ∧ (0 : ℝ) < 1 ∧ (1 : ℝ) < Real.pi) ∧
      |((tan_2_pixel_by_fov (Real.tan (pixel_tan_from_fov ⟨1⟩ ⟨4, 0⟩ 1)) ⟨4, 0⟩ 1).value : ℤ)
          - (1 : ℤ)| ≤ 1 :=
  ⟨⟨by decide, by decide, by norm_num, by linarith [Real.pi_gt_three]⟩,
    C2_roundtrip ⟨4, 0⟩ 1 1 (by decide) (by decide) (by norm_num)
      (by linarith [Real.pi_gt_three])⟩

/-- Claim C4: with `round_back = true`, `tan_2_pixel_by_pixel_2_tan` rounds
`t/k + half_width` to the nearest integer; with `round_back = false` it
truncates toward zero via the integer cast (after the clamp to `uint64_t`,
truncation toward zero agrees with the floor). -/
theorem C4_round_toggle (t : ℝ) (s : ImageSize) (k : ℝ) (hk : k ≠ 0) :
    (tan_2_pixel_by_pixel_2_tan t s k true).value = (round (t / k + s.half_width)).toNat ∧
      (tan_2_pixel_by_pixel_2_tan t s k false).value = (⌊t / k + s.half_width⌋).toNat := by
  constructor
  · show (cppRound (t / k + s.half_width)).toNat = _
    exact cppRound_toNat_eq _
  · show cppTruncToU64 (t / k + s.half_width) = _
    exact cppTruncToU64_eq_floor _

/-- Witness for C4 at tangent 1, width 4, scale 1. -/
theorem C4_round_toggle_witness :
    (1 : ℝ) ≠ 0 ∧
      ((tan_2_pixel_by_pixel_2_tan 1 ⟨4, 0⟩ 1 true).value
          = (round ((1 : ℝ) / 1 + ImageSize.half_width ⟨4, 0⟩)).toNat ∧
        (tan_2_pixel_by_pixel_2_tan 1 ⟨4, 0⟩ 1 false).value
          = (⌊(1 : ℝ) / 1 + ImageSize.half_width ⟨4, 0⟩⌋).toNat) :=
  ⟨by norm_num, C4_round_toggle 1 ⟨4, 0⟩ 1 (by norm_num)⟩

/-- Claim C5: a zero tangent maps to the rounded center pixel: for positive
width and `tan(fov/2) ≠ 0`, `tan_2_pixel_by_fov 0 s fov` has value
`round(half_width)` — in particular `320` for a 640-wide image (see the
witness). -/
theorem C5_zero_tan_center (s : ImageSize) (fov : ℝ) (hw : 0 < s.width)
    (ht : Real.tan (fov / 2) ≠ 0) :
    (tan_2_pixel_by_fov 0 s fov).value = (round s.half_width).toNat := by
  unfold tan_2_pixel_by_fov
  rw [zero_div, zero_mul, zero_add]
  exact cppRound_toNat_eq _

/-- Witness for C5 at the spec's seed values: a 640×480 image with a 32°
fov maps zero tangent to pixel 320. -/
theorem C5_zero_tan_center_witness :
    (0 < (ImageSize.mk 640 480).width ∧ Real.tan (32 * Real.pi / 180 / 2) ≠ 0) ∧
      (tan_2_pixel_by_fov 0 ⟨640, 480⟩ (32 * Real.pi / 180)).value = 320 := by
  have hpi := Real.pi_pos
  have ht : (0 : ℝ) < Real.tan (32 * Real.pi / 180 / 2) := by
    apply Real.tan_pos_of_pos_of_lt_pi_div_two
    · positivity
    · linarith
  refine ⟨⟨by decide, ht.ne'⟩, ?_⟩
  rw [C5_zero_tan_center ⟨640, 480⟩ (32 * Real.pi / 180) (by decide) ht.ne']
  norm_num [ImageSize.half_width, round_eq]
  decide

end p2b
